import Mathlib

/-!
Verification development for the allingrid core: a shallow embedding of
(1) the ShareDB subscription registry and field-update operation translator
    (src/dice/src/services/sharedbService.ts), and
(2) the cache-consistent repository wrappers
    (src/server/internal/infrastructure/repository/cached_repository.go).

JavaScript values are modelled with an explicit null constructor so that the
undefined-versus-null distinction of the source survives; `Option JsVal` with
`none` stands for undefined.  Go errors are modelled as `Except`; `nil`
pointers as `Option`.  Cache and authoritative-store interactions are
instrumented as explicit call traces so that claims about which calls happen
(and in which order) are statable.
-/

namespace Allingrid

/-- A JavaScript value as it flows through the field-update path.  `jnull` is
the JS literal null; undefined is represented by `Option.none` one level up. -/
inductive JsVal where
  | jnull
  | jbool (b : Bool)
  | jnum (n : Int)
  | jstr (s : String)
  deriving DecidableEq, Repr

/-- A document snapshot: a mapping from field ids to values. -/
abbrev JsData := List (String × JsVal)

/-- One JSON0 patch entry as built by submitFieldUpdate: a path plus optional
insert-value (oi) and optional old-value conflict check (od), mirroring which
keys are present on the emitted JS object. -/
structure ShareDBOperation where
  p : List String
  oi : Option JsVal
  od : Option JsVal
  deriving DecidableEq, Repr

/-- The event shape delivered to listeners: operations, local-origin flag and
a data snapshot. -/
structure ShareDBDocEvent where
  op : List ShareDBOperation
  source : Bool
  data : JsData
  deriving DecidableEq, Repr

/-- The JS test `newValue === undefined || newValue === null` from
submitFieldUpdate. -/
def isAbsentNewValue (v : Option JsVal) : Bool :=
  match v with
  | none => true
  | some JsVal.jnull => true
  | some _ => false

/-- The operation list built by ShareDBService.submitFieldUpdate before the
length check: delete entry when the new value is undefined/null and the old
value is known, replace entry when both are known, insert entry when only the
new value is known, and the empty list otherwise. -/
def buildFieldUpdateOps (fieldId : String) (newValue oldValue : Option JsVal) :
    List ShareDBOperation :=
  if isAbsentNewValue newValue then
    match oldValue with
    | none => []
    | some ov => [⟨["data", fieldId], none, some ov⟩]
  else
    match newValue, oldValue with
    | some nv, some ov => [⟨["data", fieldId], some nv, some ov⟩]
    | some nv, none => [⟨["data", fieldId], some nv, none⟩]
    | none, _ => []

/-- Listener callbacks are identified abstractly. -/
abbrev ListenerId := Nat

/-- Modelled from the spec: the document sync primitive is not part of src/;
per the external-interface contract, getDocument(collectionKey, recordId)
yields the live handle for that pair, so a handle is identified by the
(collection, recordId) pair itself — the same pair always denotes the same
live document. -/
abbrev DocId := String × String

/-- The mutable fields of ShareDBService: the configured table id, the
recordId-to-document map, and the recordId-to-listener-set map.  The two TS
Maps are modelled as functions (a Map holds at most one value per key). -/
structure SBState where
  tableId : Option String
  subscribedDocs : String → Option DocId
  eventHandlers : String → Option (List ListenerId)

/-- Modelled from the spec: the state of the external sync primitive
(luckdbClient.sharedb), which is not part of src/ — connection status, each
document's current data snapshot, which adapter closures are attached to each
document's load/op/error events, and whether a subscribe call on a document
resolves. -/
structure SBWorld where
  connected : Bool
  docData : DocId → Option JsData
  attachedLoad : DocId → List ListenerId
  attachedOp : DocId → List ListenerId
  attachedErr : DocId → List ListenerId
  subscribeOk : DocId → Bool

/-- Errors thrown by ShareDBService methods. -/
inductive SBError where
  | notConnected
  | tableIdNotSet
  | subscribeFailed
  | notSubscribed (recordId : String)
  deriving DecidableEq, Repr

/-- Point update of a string-keyed map. -/
def updateMap {α : Type} (m : String → Option α) (k : String) (v : α) :
    String → Option α :=
  fun k2 => if k2 = k then some v else m k2

/-- The eventHandlers update in subscribeRecord: create the Set on first use,
then Set.add the listener (a JS Set deduplicates). -/
def addListener (m : String → Option (List ListenerId)) (rid : String)
    (l : ListenerId) : String → Option (List ListenerId) :=
  let cur := (m rid).getD []
  updateMap m rid (if l ∈ cur then cur else cur ++ [l])

/-- doc.on for the three events: each subscribeRecord call attaches fresh
closures (all forwarding to this call's listener) to the document. -/
def attachHandlers (w : SBWorld) (doc : DocId) (l : ListenerId) : SBWorld :=
  { w with
    attachedLoad := fun d => if d = doc then w.attachedLoad d ++ [l] else w.attachedLoad d
    attachedOp := fun d => if d = doc then w.attachedOp d ++ [l] else w.attachedOp d
    attachedErr := fun d => if d = doc then w.attachedErr d ++ [l] else w.attachedErr d }

/-- Outcome of one subscribeRecord call: the thrown error if any, the registry
state and sync-primitive state after the call, and the events delivered
synchronously during the call. -/
structure SubscribeResult where
  error : Option SBError
  state : SBState
  world : SBWorld
  emitted : List (ListenerId × ShareDBDocEvent)

/-- ShareDBService.subscribeRecord: check connectivity, derive the collection
name from the table id, obtain the document handle, register the listener in
eventHandlers, attach event adapters, await doc.subscribe() (on rejection the
error propagates with the registrations already made), record the handle in
subscribedDocs, and if the document already has data deliver one snapshot
event to this call's listener. -/
def subscribeRecord (w : SBWorld) (s : SBState) (recordId : String)
    (l : ListenerId) : SubscribeResult :=
  if w.connected = false then
    ⟨some SBError.notConnected, s, w, []⟩
  else
    match s.tableId with
    | none => ⟨some SBError.tableIdNotSet, s, w, []⟩
    | some tid =>
      let doc : DocId := ("rec_" ++ tid, recordId)
      let s1 : SBState := { s with eventHandlers := addListener s.eventHandlers recordId l }
      let w1 := attachHandlers w doc l
      if w.subscribeOk doc = false then
        ⟨some SBError.subscribeFailed, s1, w1, []⟩
      else
        let s2 : SBState := { s1 with subscribedDocs := updateMap s1.subscribedDocs recordId doc }
        let emitted : List (ListenerId × ShareDBDocEvent) :=
          match w.docData doc with
          | some d => [(l, ⟨[], false, d⟩)]
          | none => []
        ⟨none, s2, w1, emitted⟩

/-- Delivery of one op event on a live document: every attached op adapter
forwards the event to its captured listener, in attach order. -/
def fireOpEvent (w : SBWorld) (doc : DocId) (e : ShareDBDocEvent) :
    List (ListenerId × ShareDBDocEvent) :=
  (w.attachedOp doc).map (fun l => (l, e))

/-- The handleError adapter's translation of an error event: op [], source
false, and the document's last known data or an empty object. -/
def handleErrorEvent (docData : Option JsData) : ShareDBDocEvent :=
  ⟨[], false, docData.getD []⟩

/-- Delivery of one error event on a live document: the registry and sync
state are untouched, and every attached error adapter delivers the translated
best-effort snapshot event to its captured listener. -/
def fireErrorEvent (w : SBWorld) (s : SBState) (doc : DocId) :
    SBState × SBWorld × List (ListenerId × ShareDBDocEvent) :=
  (s, w, (w.attachedErr doc).map (fun l => (l, handleErrorEvent (w.docData doc))))

/-- Outcome of submitFieldUpdate: the thrown error if any, and the operation
list passed to doc.submitOp, or none when submitOp was not called. -/
structure SubmitResult where
  error : Option SBError
  submitted : Option (List ShareDBOperation)
  deriving DecidableEq, Repr

/-- ShareDBService.submitFieldUpdate: require a subscribed document, build the
JSON0 operation list, and call submitOp only when the list is non-empty. -/
def submitFieldUpdate (s : SBState) (recordId fieldId : String)
    (newValue oldValue : Option JsVal) : SubmitResult :=
  match s.subscribedDocs recordId with
  | none => ⟨some (SBError.notSubscribed recordId), none⟩
  | some _ =>
    let op := buildFieldUpdateOps fieldId newValue oldValue
    if op.length > 0 then ⟨none, some op⟩ else ⟨none, none⟩

/-- A field entity, reduced to the identifiers the cached wrapper consults. -/
structure Field where
  id : String
  tableID : String
  deriving DecidableEq, Repr

/-- A record entity, reduced to the identifiers the cached wrapper consults. -/
structure GoRecord where
  tableID : String
  id : String
  deriving DecidableEq, Repr

/-- A Go error value; `Except GoErr` plays the role of (result, err) pairs. -/
abbrev GoErr := String

/-- Decidable equality of Except values, for evaluating witnesses. -/
instance {ε α : Type} [DecidableEq ε] [DecidableEq α] : DecidableEq (Except ε α) := by
  intro a b
  cases a <;> cases b
  case ok.ok x y =>
    exact decidable_of_iff (x = y) (by constructor <;> (intro h; simp_all))
  case error.error x y =>
    exact decidable_of_iff (x = y) (by constructor <;> (intro h; simp_all))
  all_goals exact Decidable.isFalse (by intro h; simp_all)

/-- A value as stored in the field cache: a single field entity (FindByID) or
a field slice (FindByTableID). -/
inductive FieldCacheVal where
  | one (f : Field)
  | many (fs : List Field)
  deriving DecidableEq, Repr

/-- A value as stored in the record cache: a single record entity
(FindByTableAndID) or a page of a listing with its total (List). -/
inductive RecordCacheVal where
  | one (r : GoRecord)
  | page (records : List GoRecord) (total : Int)
  deriving DecidableEq, Repr

/-- One call issued to the cache provider, instrumented with the value, TTL
and whether the provider reported success (set/delete/invalidate outcomes are
only logged by the wrappers, never propagated). -/
inductive CacheCall (V : Type) where
  | get (key : String)
  | set (key : String) (v : V) (ttl : Nat) (ok : Bool)
  | del (keys : List String) (ok : Bool)
  | invalidate (pat : String) (ok : Bool)
  deriving DecidableEq, Repr

/-- The environment a CachedFieldRepository call runs in: the cache provider's
behaviour (a get either succeeds with the deserialized value — a hit — or
returns an error, covering both miss and provider failure, exactly the
distinction the code observes), the outcome flags of cache writes, the
transaction marker on the context, and the wrapped authoritative repository's
behaviour. -/
structure FieldRepoEnv where
  cacheGetOne : String → Except Unit (Option Field)
  cacheGetMany : String → Except Unit (List Field)
  cacheSetOk : String → Bool
  cacheDelOk : List String → Bool
  cacheInvOk : String → Bool
  inTransaction : Bool
  repoFindByID : String → Except GoErr (Option Field)
  repoFindByTableID : String → Except GoErr (List Field)
  repoSave : Field → Option GoErr
  repoBatchDelete : List String → Option GoErr

/-- Outcome of a cached field-repository operation: the returned
(value, error) pair, the cache calls issued in order, and how many calls hit
the authoritative repository. -/
structure FieldOpResult (α : Type) where
  result : Except GoErr α
  cacheTrace : List (CacheCall FieldCacheVal)
  repoCalls : Nat
  deriving DecidableEq, Repr

/-- buildCacheKey of CachedFieldRepository: "field:" kind ":" id. -/
def fieldCacheKey (kind id : String) : String :=
  "field:" ++ kind ++ ":" ++ id

/-- CachedFieldRepository.FindByID: try the cache under field:id:<id>; on a
hit return the cached value without touching the authoritative repository; on
a miss (or provider failure) query the repository, propagate its error, and
cache the result with the configured TTL only when it is non-nil. -/
def CachedFieldRepository.FindByID (env : FieldRepoEnv) (ttl : Nat)
    (id : String) : FieldOpResult (Option Field) :=
  let cacheKey := fieldCacheKey "id" id
  match env.cacheGetOne cacheKey with
  | Except.ok field => ⟨Except.ok field, [CacheCall.get cacheKey], 0⟩
  | Except.error _ =>
    match env.repoFindByID id with
    | Except.error e => ⟨Except.error e, [CacheCall.get cacheKey], 1⟩
    | Except.ok none => ⟨Except.ok none, [CacheCall.get cacheKey], 1⟩
    | Except.ok (some f) =>
      ⟨Except.ok (some f),
       [CacheCall.get cacheKey,
        CacheCall.set cacheKey (FieldCacheVal.one f) ttl (env.cacheSetOk cacheKey)],
       1⟩

/-- CachedFieldRepository.FindByTableID: when the context is inside a
transaction, bypass the cache entirely and query the authoritative repository
directly; otherwise cache-aside under field:table:<tableID>, caching the
resulting slice unconditionally on a successful repository query. -/
def CachedFieldRepository.FindByTableID (env : FieldRepoEnv) (ttl : Nat)
    (tableID : String) : FieldOpResult (List Field) :=
  if env.inTransaction then
    ⟨env.repoFindByTableID tableID, [], 1⟩
  else
    let cacheKey := fieldCacheKey "table" tableID
    match env.cacheGetMany cacheKey with
    | Except.ok fields => ⟨Except.ok fields, [CacheCall.get cacheKey], 0⟩
    | Except.error _ =>
      match env.repoFindByTableID tableID with
      | Except.error e => ⟨Except.error e, [CacheCall.get cacheKey], 1⟩
      | Except.ok fields =>
        ⟨Except.ok fields,
         [CacheCall.get cacheKey,
          CacheCall.set cacheKey (FieldCacheVal.many fields) ttl (env.cacheSetOk cacheKey)],
         1⟩

/-- invalidateCache of CachedFieldRepository: delete the point key and the
table key, then invalidate the field:table:<tableID> pattern; both outcomes
are only logged. -/
def CachedFieldRepository.invalidateCacheTrace (env : FieldRepoEnv)
    (field : Field) : List (CacheCall FieldCacheVal) :=
  let keys := [fieldCacheKey "id" field.id, fieldCacheKey "table" field.tableID]
  let pat := "field:table:" ++ field.tableID
  [CacheCall.del keys (env.cacheDelOk keys), CacheCall.invalidate pat (env.cacheInvOk pat)]

/-- CachedFieldRepository.Save: run the authoritative save first; on error
return it with no cache activity; on success invalidate the field's cache
entries and return success regardless of invalidation outcomes. -/
def CachedFieldRepository.Save (env : FieldRepoEnv) (field : Field) :
    FieldOpResult Unit :=
  match env.repoSave field with
  | some e => ⟨Except.error e, [], 1⟩
  | none => ⟨Except.ok (), CachedFieldRepository.invalidateCacheTrace env field, 1⟩

/-- CachedFieldRepository.BatchDelete: a pure delegation to the authoritative
repository — no cache invalidation of any kind. -/
def CachedFieldRepository.BatchDelete (env : FieldRepoEnv) (ids : List String) :
    FieldOpResult Unit :=
  match env.repoBatchDelete ids with
  | some e => ⟨Except.error e, [], 1⟩
  | none => ⟨Except.ok (), [], 1⟩

/-- The filter of RecordRepository.List; TableID is a *string in Go, hence an
Option here. -/
structure RecordFilter where
  tableID : Option String
  limit : Int
  offset : Int

/-- The environment a CachedRecordRepository call runs in, mirroring
FieldRepoEnv for the record entity kind. -/
structure RecordRepoEnv where
  cacheGetOne : String → Except Unit (Option GoRecord)
  cacheGetPage : String → Except Unit (List GoRecord × Int)
  cacheSetOk : String → Bool
  cacheDelOk : List String → Bool
  cacheInvOk : String → Bool
  repoFindByTableAndID : String → String → Except GoErr (Option GoRecord)
  repoSave : GoRecord → Option GoErr
  repoBatchDelete : List String → Option GoErr
  repoList : RecordFilter → Except GoErr (List GoRecord × Int)

/-- Outcome of a cached record-repository operation. -/
structure RecordOpResult (α : Type) where
  result : Except GoErr α
  cacheTrace : List (CacheCall RecordCacheVal)
  repoCalls : Nat
  deriving DecidableEq, Repr

/-- buildCacheKey of CachedRecordRepository: "record:" kind ":" tableID ":"
recordID. -/
def recordCacheKey (kind tableID recordID : String) : String :=
  "record:" ++ kind ++ ":" ++ tableID ++ ":" ++ recordID

/-- The list-cache key of CachedRecordRepository.List:
record:list:<tableID>:<limit>:<offset>. -/
def recordListKey (tableID : String) (limit offset : Int) : String :=
  "record:list:" ++ tableID ++ ":" ++ toString limit ++ ":" ++ toString offset

/-- CachedRecordRepository.FindByTableAndID: cache-aside point read under
record:id:<tableID>:<recordID>, caching the result with the configured TTL
only when it is non-nil. -/
def CachedRecordRepository.FindByTableAndID (env : RecordRepoEnv) (ttl : Nat)
    (tableID recordID : String) : RecordOpResult (Option GoRecord) :=
  let cacheKey := recordCacheKey "id" tableID recordID
  match env.cacheGetOne cacheKey with
  | Except.ok record => ⟨Except.ok record, [CacheCall.get cacheKey], 0⟩
  | Except.error _ =>
    match env.repoFindByTableAndID tableID recordID with
    | Except.error e => ⟨Except.error e, [CacheCall.get cacheKey], 1⟩
    | Except.ok none => ⟨Except.ok none, [CacheCall.get cacheKey], 1⟩
    | Except.ok (some r) =>
      ⟨Except.ok (some r),
       [CacheCall.get cacheKey,
        CacheCall.set cacheKey (RecordCacheVal.one r) ttl (env.cacheSetOk cacheKey)],
       1⟩

/-- CachedRecordRepository.Save: run the authoritative save first; on error
return it with no cache activity; on success delete the record's point key
and invalidate the record:list:<tableID>:* pattern, returning success
regardless of either outcome. -/
def CachedRecordRepository.Save (env : RecordRepoEnv) (record : GoRecord) :
    RecordOpResult Unit :=
  match env.repoSave record with
  | some e => ⟨Except.error e, [], 1⟩
  | none =>
    let cacheKey := recordCacheKey "id" record.tableID record.id
    let pat := "record:list:" ++ record.tableID ++ ":*"
    ⟨Except.ok (),
     [CacheCall.del [cacheKey] (env.cacheDelOk [cacheKey]),
      CacheCall.invalidate pat (env.cacheInvOk pat)],
     1⟩

/-- CachedRecordRepository.BatchDelete: run the authoritative batch delete
first; on success invalidate, for every id in the batch, the wildcard pattern
record:*:*:<id> covering all possible table segments. -/
def CachedRecordRepository.BatchDelete (env : RecordRepoEnv)
    (ids : List String) : RecordOpResult Unit :=
  match env.repoBatchDelete ids with
  | some e => ⟨Except.error e, [], 1⟩
  | none =>
    ⟨Except.ok (),
     ids.map (fun id =>
       CacheCall.invalidate ("record:*:*:" ++ id)
         (env.cacheInvOk ("record:*:*:" ++ id))),
     1⟩

/-- Outcome of CachedRecordRepository.List, with a fault flag for the
unguarded *filter.TableID dereference: when the filter carries no table id
the Go code dereferences a nil pointer before any cache or repository call. -/
structure RecordListOutcome where
  fault : Bool
  result : Except GoErr (List GoRecord × Int)
  cacheTrace : List (CacheCall RecordCacheVal)
  repoCalls : Nat
  deriving DecidableEq, Repr

/-- CachedRecordRepository.List: clamp the TTL to 30 seconds, build the list
cache key by dereferencing filter.TableID unconditionally (a nil TableID
faults), then cache-aside over the (records, total) pair. -/
def CachedRecordRepository.List (env : RecordRepoEnv) (ttl : Nat)
    (filter : RecordFilter) : RecordListOutcome :=
  match filter.tableID with
  | none => ⟨true, Except.error "nil pointer dereference", [], 0⟩
  | some t =>
    let shortTTL := if ttl < 30 then ttl else 30
    let cacheKey := recordListKey t filter.limit filter.offset
    match env.cacheGetPage cacheKey with
    | Except.ok pr => ⟨false, Except.ok pr, [CacheCall.get cacheKey], 0⟩
    | Except.error _ =>
      match env.repoList filter with
      | Except.error e => ⟨false, Except.error e, [CacheCall.get cacheKey], 1⟩
      | Except.ok (records, total) =>
        ⟨false, Except.ok (records, total),
         [CacheCall.get cacheKey,
          CacheCall.set cacheKey (RecordCacheVal.page records total) shortTTL
            (env.cacheSetOk cacheKey)],
         1⟩

/-! Concrete instances used to evaluate the theorems below. -/

/-- A sync-primitive state that is connected, has no document data, and whose
subscribe calls succeed. -/
def wLive : SBWorld :=
  ⟨true, fun _ => none, fun _ => [], fun _ => [], fun _ => [], fun _ => true⟩

/-- A sync-primitive state that is connected but whose subscribe calls all
reject. -/
def wFail : SBWorld :=
  ⟨true, fun _ => none, fun _ => [], fun _ => [], fun _ => [], fun _ => false⟩

/-- A fresh registry with table id t1 and no subscriptions. -/
def sFresh : SBState :=
  ⟨some "t1", fun _ => none, fun _ => none⟩

/-- A registry whose record r1 is subscribed (for submitFieldUpdate). -/
def sSubscribed : SBState :=
  ⟨some "t1", fun rid => if rid = "r1" then some ("rec_t1", "r1") else none,
   fun rid => if rid = "r1" then some [1] else none⟩

/-- Claim C3: the field-update translation yields the empty operation list iff
the new value is absent (undefined or null) and the old value is unknown;
otherwise it yields exactly one patch entry at path [data, fieldId] — a
delete entry carrying the old value when the new value is absent, a replace
entry carrying both values when both are known, an insert entry when only the
new value is known — and an empty operation list is never passed to
submitOp. -/
theorem buildFieldUpdate_combination_rule (fieldId : String)
    (newValue oldValue : Option JsVal) :
    (buildFieldUpdateOps fieldId newValue oldValue = [] ↔
       isAbsentNewValue newValue = true ∧ oldValue = none) ∧
    (∀ ov, isAbsentNewValue newValue = true → oldValue = some ov →
       buildFieldUpdateOps fieldId newValue oldValue =
         [⟨["data", fieldId], none, some ov⟩]) ∧
    (∀ nv ov, isAbsentNewValue newValue = false → newValue = some nv →
       oldValue = some ov →
       buildFieldUpdateOps fieldId newValue oldValue =
         [⟨["data", fieldId], some nv, some ov⟩]) ∧
    (∀ nv, isAbsentNewValue newValue = false → newValue = some nv →
       oldValue = none →
       buildFieldUpdateOps fieldId newValue oldValue =
         [⟨["data", fieldId], some nv, none⟩]) ∧
    (∀ (s : SBState) (recordId : String),
       buildFieldUpdateOps fieldId newValue oldValue = [] →
       (submitFieldUpdate s recordId fieldId newValue oldValue).submitted = none) := by
  refine ⟨?_, ?_, ?_, ?_, ?_⟩
  · rcases newValue with _ | nv
    · rcases oldValue with _ | ov <;> simp [buildFieldUpdateOps, isAbsentNewValue]
    · rcases nv <;> rcases oldValue with _ | ov <;>
        simp [buildFieldUpdateOps, isAbsentNewValue]
  · intro ov habs hold
    subst hold
    rcases newValue with _ | nv
    · simp [buildFieldUpdateOps, isAbsentNewValue]
    · rcases nv <;> simp_all [buildFieldUpdateOps, isAbsentNewValue]
  · intro nv ov habs hnew hold
    subst hnew
    subst hold
    rcases nv <;> simp_all [buildFieldUpdateOps, isAbsentNewValue]
  · intro nv habs hnew hold
    subst hnew
    subst hold
    rcases nv <;> simp_all [buildFieldUpdateOps, isAbsentNewValue]
  · intro s recordId h
    unfold submitFieldUpdate
    cases hd : s.subscribedDocs recordId
    · simp
    · simp [h]

/-- Witness for C3: a replace update yields one replace entry; an absent pair
yields the empty list; and with that empty list submitOp is not called even
on a subscribed document. -/
theorem buildFieldUpdate_combination_rule_witness :
    buildFieldUpdateOps "fld" (some (JsVal.jnum 2)) (some (JsVal.jnum 1)) =
      [⟨["data", "fld"], some (JsVal.jnum 2), some (JsVal.jnum 1)⟩] ∧
    buildFieldUpdateOps "fld" none none = [] ∧
    (submitFieldUpdate sSubscribed "r1" "fld" none none).submitted = none :=
  ⟨(buildFieldUpdate_combination_rule "fld" (some (JsVal.jnum 2))
      (some (JsVal.jnum 1))).2.2.1 (JsVal.jnum 2) (JsVal.jnum 1) rfl rfl rfl,
   (buildFieldUpdate_combination_rule "fld" none none).1.mpr ⟨rfl, rfl⟩,
   (buildFieldUpdate_combination_rule "fld" none none).2.2.2.2 sSubscribed "r1"
     ((buildFieldUpdate_combination_rule "fld" none none).1.mpr ⟨rfl, rfl⟩)⟩

/-- Claim C8: an error event on a live document leaves the registry and the
sync-primitive state untouched (the subscription is not terminated, nothing
is thrown) and delivers to every attached error adapter exactly one
translated snapshot event with op [], source false, and the document's last
known data or an empty object when it has none. -/
theorem error_event_degrades_to_snapshot (w : SBWorld) (s : SBState)
    (doc : DocId) :
    (fireErrorEvent w s doc).1 = s ∧
    (fireErrorEvent w s doc).2.1 = w ∧
    (fireErrorEvent w s doc).2.2 =
      (w.attachedErr doc).map (fun l => (l, handleErrorEvent (w.docData doc))) ∧
    (∀ d, w.docData doc = some d →
       handleErrorEvent (w.docData doc) = ⟨[], false, d⟩) ∧
    (w.docData doc = none → handleErrorEvent (w.docData doc) = ⟨[], false, []⟩) := by
  refine ⟨rfl, rfl, rfl, ?_, ?_⟩
  · intro d h
    simp [handleErrorEvent, h]
  · intro h
    simp [handleErrorEvent, h]

/-- Witness for C8: on a document with no data, the error event delivers the
empty-object snapshot and leaves the registry untouched. -/
theorem error_event_degrades_to_snapshot_witness :
    (fireErrorEvent wLive sFresh ("rec_t1", "r1")).1 = sFresh ∧
    handleErrorEvent (wLive.docData ("rec_t1", "r1")) = ⟨[], false, []⟩ :=
  ⟨(error_event_degrades_to_snapshot wLive sFresh ("rec_t1", "r1")).1,
   (error_event_degrades_to_snapshot wLive sFresh ("rec_t1", "r1")).2.2.2.2 rfl⟩

/-- Claim C2: two subscribes on the same recordId (listeners l1 then l2)
before any unsubscribe both succeed, the registry then holds exactly the one
document handle for that recordId, and every op event fired on that
handle is delivered to both listeners. -/
theorem subscribe_twice_one_handle_both_listeners
    (w : SBWorld) (s : SBState) (recordId : String) (l1 l2 : ListenerId)
    (tid : String) (htid : s.tableId = some tid)
    (hconn : w.connected = true)
    (hok : w.subscribeOk ("rec_" ++ tid, recordId) = true) :
    (subscribeRecord w s recordId l1).error = none ∧
    (subscribeRecord (subscribeRecord w s recordId l1).world
        (subscribeRecord w s recordId l1).state recordId l2).error = none ∧
    (subscribeRecord (subscribeRecord w s recordId l1).world
        (subscribeRecord w s recordId l1).state recordId l2).state.subscribedDocs
        recordId = some ("rec_" ++ tid, recordId) ∧
    (∀ e : ShareDBDocEvent,
       (l1, e) ∈ fireOpEvent
         (subscribeRecord (subscribeRecord w s recordId l1).world
           (subscribeRecord w s recordId l1).state recordId l2).world
         ("rec_" ++ tid, recordId) e ∧
       (l2, e) ∈ fireOpEvent
         (subscribeRecord (subscribeRecord w s recordId l1).world
           (subscribeRecord w s recordId l1).state recordId l2).world
         ("rec_" ++ tid, recordId) e) := by
  simp [subscribeRecord, attachHandlers, addListener, updateMap, fireOpEvent,
    htid, hconn, hok]

/-- Witness for C2: on a fresh registry, subscribing listeners 1 and 2 to r1
leaves exactly the handle (rec_t1, r1) registered, and an op event reaches
both. -/
theorem subscribe_twice_one_handle_both_listeners_witness :
    (subscribeRecord (subscribeRecord wLive sFresh "r1" 1).world
        (subscribeRecord wLive sFresh "r1" 1).state "r1" 2).state.subscribedDocs
        "r1" = some ("rec_" ++ "t1", "r1") ∧
    (1, (⟨[], false, []⟩ : ShareDBDocEvent)) ∈ fireOpEvent
        (subscribeRecord (subscribeRecord wLive sFresh "r1" 1).world
          (subscribeRecord wLive sFresh "r1" 1).state "r1" 2).world
        ("rec_" ++ "t1", "r1") ⟨[], false, []⟩ ∧
    (2, (⟨[], false, []⟩ : ShareDBDocEvent)) ∈ fireOpEvent
        (subscribeRecord (subscribeRecord wLive sFresh "r1" 1).world
          (subscribeRecord wLive sFresh "r1" 1).state "r1" 2).world
        ("rec_" ++ "t1", "r1") ⟨[], false, []⟩ :=
  ⟨(subscribe_twice_one_handle_both_listeners wLive sFresh "r1" 1 2 "t1"
      rfl rfl rfl).2.2.1,
   ((subscribe_twice_one_handle_both_listeners wLive sFresh "r1" 1 2 "t1"
      rfl rfl rfl).2.2.2 ⟨[], false, []⟩).1,
   ((subscribe_twice_one_handle_both_listeners wLive sFresh "r1" 1 2 "t1"
      rfl rfl rfl).2.2.2 ⟨[], false, []⟩).2⟩

/-- Claim C9 counterexample: on a fresh registry, a subscribe attempt for r1
with listener 7 whose document subscribe rejects throws, registers no
document handle — but listener 7 remains registered in the event-handler
map, so the registry does not reach a state with no registered listener for
that recordId. -/
theorem subscribe_failure_leaves_listener_registered :
    (subscribeRecord wFail sFresh "r1" 7).error = some SBError.subscribeFailed ∧
    (subscribeRecord wFail sFresh "r1" 7).state.subscribedDocs "r1" = none ∧
    (subscribeRecord wFail sFresh "r1" 7).state.eventHandlers "r1" = some [7] := by
  refine ⟨rfl, ?_, ?_⟩ <;>
    simp [subscribeRecord, wFail, sFresh, attachHandlers, addListener, updateMap]

/-- Claim C9 (amended): a subscribe attempt whose document subscribe rejects
throws subscribeFailed and registers no document handle (the handle map is
unchanged), but the listener registered at the start of the attempt remains
in the event-handler map and its adapters remain attached to the document. -/
theorem subscribe_failure_state (w : SBWorld) (s : SBState) (recordId : String)
    (l : ListenerId) (tid : String) (htid : s.tableId = some tid)
    (hconn : w.connected = true)
    (hfail : w.subscribeOk ("rec_" ++ tid, recordId) = false) :
    (subscribeRecord w s recordId l).error = some SBError.subscribeFailed ∧
    (subscribeRecord w s recordId l).state.subscribedDocs = s.subscribedDocs ∧
    (subscribeRecord w s recordId l).state.eventHandlers recordId =
      some (if l ∈ (s.eventHandlers recordId).getD []
            then (s.eventHandlers recordId).getD []
            else (s.eventHandlers recordId).getD [] ++ [l]) ∧
    l ∈ (subscribeRecord w s recordId l).world.attachedOp
      ("rec_" ++ tid, recordId) := by
  simp [subscribeRecord, attachHandlers, addListener, updateMap,
    htid, hconn, hfail]

/-- Witness for the amended C9: the failed subscribe of listener 7 to r1 on a
fresh registry leaves the handle map unchanged while the event adapters stay
attached. -/
theorem subscribe_failure_state_witness :
    (subscribeRecord wFail sFresh "r1" 7).state.subscribedDocs =
      sFresh.subscribedDocs ∧
    7 ∈ (subscribeRecord wFail sFresh "r1" 7).world.attachedOp
      ("rec_" ++ "t1", "r1") :=
  ⟨(subscribe_failure_state wFail sFresh "r1" 7 "t1" rfl rfl rfl).2.1,
   (subscribe_failure_state wFail sFresh "r1" 7 "t1" rfl rfl rfl).2.2.2⟩

/-! Helper reduction lemmas for the cached repositories. -/

/-- On a cache hit, FindByID returns the cached value with no repository
call. -/
theorem findByID_hit (env : FieldRepoEnv) (ttl : Nat) (id : String)
    (v : Option Field)
    (h : env.cacheGetOne (fieldCacheKey "id" id) = Except.ok v) :
    CachedFieldRepository.FindByID env ttl id =
      ⟨Except.ok v, [CacheCall.get (fieldCacheKey "id" id)], 0⟩ := by
  simp [CachedFieldRepository.FindByID, h]

/-- On a cache miss, FindByID reduces to a case split on the authoritative
repository's answer. -/
theorem findByID_miss (env : FieldRepoEnv) (ttl : Nat) (id : String) (u : Unit)
    (h : env.cacheGetOne (fieldCacheKey "id" id) = Except.error u) :
    CachedFieldRepository.FindByID env ttl id =
      (match env.repoFindByID id with
       | Except.error e =>
         ⟨Except.error e, [CacheCall.get (fieldCacheKey "id" id)], 1⟩
       | Except.ok none =>
         ⟨Except.ok none, [CacheCall.get (fieldCacheKey "id" id)], 1⟩
       | Except.ok (some f) =>
         ⟨Except.ok (some f),
          [CacheCall.get (fieldCacheKey "id" id),
           CacheCall.set (fieldCacheKey "id" id) (FieldCacheVal.one f) ttl
             (env.cacheSetOk (fieldCacheKey "id" id))], 1⟩) := by
  simp [CachedFieldRepository.FindByID, h]

/-- On a cache hit, FindByTableAndID returns the cached value with no
repository call. -/
theorem findByTableAndID_hit (env : RecordRepoEnv) (ttl : Nat)
    (tableID recordID : String) (v : Option GoRecord)
    (h : env.cacheGetOne (recordCacheKey "id" tableID recordID) = Except.ok v) :
    CachedRecordRepository.FindByTableAndID env ttl tableID recordID =
      ⟨Except.ok v, [CacheCall.get (recordCacheKey "id" tableID recordID)], 0⟩ := by
  simp [CachedRecordRepository.FindByTableAndID, h]

/-- On a cache miss, FindByTableAndID reduces to a case split on the
authoritative repository's answer. -/
theorem findByTableAndID_miss (env : RecordRepoEnv) (ttl : Nat)
    (tableID recordID : String) (u : Unit)
    (h : env.cacheGetOne (recordCacheKey "id" tableID recordID) = Except.error u) :
    CachedRecordRepository.FindByTableAndID env ttl tableID recordID =
      (match env.repoFindByTableAndID tableID recordID with
       | Except.error e =>
         ⟨Except.error e, [CacheCall.get (recordCacheKey "id" tableID recordID)], 1⟩
       | Except.ok none =>
         ⟨Except.ok none, [CacheCall.get (recordCacheKey "id" tableID recordID)], 1⟩
       | Except.ok (some r) =>
         ⟨Except.ok (some r),
          [CacheCall.get (recordCacheKey "id" tableID recordID),
           CacheCall.set (recordCacheKey "id" tableID recordID)
             (RecordCacheVal.one r) ttl
             (env.cacheSetOk (recordCacheKey "id" tableID recordID))], 1⟩) := by
  simp [CachedRecordRepository.FindByTableAndID, h]

/-! Concrete repository environments used to evaluate the theorems below. -/

/-- An environment whose context is inside a write-transaction while the
point-read cache holds a value for field fld1 and the database is
unavailable. -/
def fenvTx : FieldRepoEnv :=
  ⟨fun _ => Except.ok (some ⟨"fld1", "tbl1"⟩), fun _ => Except.error (),
   fun _ => true, fun _ => true, fun _ => true,
   true,
   fun _ => Except.error "database unavailable", fun _ => Except.ok [],
   fun _ => none, fun _ => none⟩

/-- A non-transactional environment with a point-read cache hit for fld1. -/
def fenvHit : FieldRepoEnv :=
  ⟨fun _ => Except.ok (some ⟨"fld1", "tbl1"⟩), fun _ => Except.error (),
   fun _ => true, fun _ => true, fun _ => true,
   false,
   fun _ => Except.error "database unavailable", fun _ => Except.ok [],
   fun _ => none, fun _ => none⟩

/-- A non-transactional environment where every cache call fails (gets miss,
writes report errors) while the authoritative field repository answers. -/
def fenvMiss : FieldRepoEnv :=
  ⟨fun _ => Except.error (), fun _ => Except.error (),
   fun _ => false, fun _ => false, fun _ => false,
   false,
   fun _ => Except.ok (some ⟨"fld1", "tbl1"⟩),
   fun _ => Except.ok [⟨"fld1", "tbl1"⟩],
   fun _ => none, fun _ => none⟩

/-- A record environment where every cache call fails while the authoritative
record repository answers. -/
def renvMiss : RecordRepoEnv :=
  ⟨fun _ => Except.error (), fun _ => Except.error (),
   fun _ => false, fun _ => false, fun _ => false,
   fun _ _ => Except.ok (some ⟨"tbl1", "rec1"⟩),
   fun _ => none, fun _ => none,
   fun _ => Except.ok ([⟨"tbl1", "rec1"⟩], 1)⟩

/-- Claim C1 counterexample: with the calling context marked in-transaction
and the cache holding field fld1, the point read FindByID still performs a
cache get, issues no authoritative call, and returns the cached value instead
of the authoritative repository's result — so in-transaction point reads are
not bypassed. -/
theorem findByID_in_transaction_still_uses_cache :
    fenvTx.inTransaction = true ∧
    (CachedFieldRepository.FindByID fenvTx 300 "fld1").cacheTrace =
      [CacheCall.get (fieldCacheKey "id" "fld1")] ∧
    (CachedFieldRepository.FindByID fenvTx 300 "fld1").repoCalls = 0 ∧
    (CachedFieldRepository.FindByID fenvTx 300 "fld1").result =
      Except.ok (some ⟨"fld1", "tbl1"⟩) ∧
    fenvTx.repoFindByID "fld1" = Except.error "database unavailable" :=
  ⟨rfl, rfl, rfl, rfl, rfl⟩

/-- Claim C1 (amended): only the collection-scoped read FindByTableID honours
the transaction marker: inside a write-transaction it performs no cache call
at all and returns the authoritative repository's result unchanged from a
single delegated call; the point read FindByID consults the cache regardless
of the transaction marker. -/
theorem findByTableID_transaction_bypass (env : FieldRepoEnv) (ttl : Nat)
    (tableID : String) (h : env.inTransaction = true) :
    CachedFieldRepository.FindByTableID env ttl tableID =
      ⟨env.repoFindByTableID tableID, [], 1⟩ := by
  simp [CachedFieldRepository.FindByTableID, h]

/-- Witness for the amended C1: in-transaction, the table-scoped field read
on fenvTx issues no cache call and returns the repository's answer. -/
theorem findByTableID_transaction_bypass_witness :
    CachedFieldRepository.FindByTableID fenvTx 300 "tbl1" =
      ⟨Except.ok [], [], 1⟩ :=
  findByTableID_transaction_bypass fenvTx 300 "tbl1" rfl

/-- Claim C5: a point-read cache hit returns the cached value with no
authoritative call; a miss issues exactly one authoritative call, returns its
result, and populates the cache with the configured TTL exactly when the
result is non-nil — for both the field point read FindByID and the record
point read FindByTableAndID. -/
theorem point_read_cache_aside (fenv : FieldRepoEnv) (renv : RecordRepoEnv)
    (ttl : Nat) (id tableID recordID : String) :
    (∀ v, fenv.cacheGetOne (fieldCacheKey "id" id) = Except.ok v →
       CachedFieldRepository.FindByID fenv ttl id =
         ⟨Except.ok v, [CacheCall.get (fieldCacheKey "id" id)], 0⟩) ∧
    (∀ u, fenv.cacheGetOne (fieldCacheKey "id" id) = Except.error u →
       (CachedFieldRepository.FindByID fenv ttl id).repoCalls = 1 ∧
       (CachedFieldRepository.FindByID fenv ttl id).result = fenv.repoFindByID id ∧
       (∀ f, fenv.repoFindByID id = Except.ok (some f) →
          (CachedFieldRepository.FindByID fenv ttl id).cacheTrace =
            [CacheCall.get (fieldCacheKey "id" id),
             CacheCall.set (fieldCacheKey "id" id) (FieldCacheVal.one f) ttl
               (fenv.cacheSetOk (fieldCacheKey "id" id))]) ∧
       (fenv.repoFindByID id = Except.ok none →
          (CachedFieldRepository.FindByID fenv ttl id).cacheTrace =
            [CacheCall.get (fieldCacheKey "id" id)]) ∧
       (∀ e, fenv.repoFindByID id = Except.error e →
          (CachedFieldRepository.FindByID fenv ttl id).cacheTrace =
            [CacheCall.get (fieldCacheKey "id" id)])) ∧
    (∀ v, renv.cacheGetOne (recordCacheKey "id" tableID recordID) = Except.ok v →
       CachedRecordRepository.FindByTableAndID renv ttl tableID recordID =
         ⟨Except.ok v, [CacheCall.get (recordCacheKey "id" tableID recordID)], 0⟩) ∧
    (∀ u, renv.cacheGetOne (recordCacheKey "id" tableID recordID) = Except.error u →
       (CachedRecordRepository.FindByTableAndID renv ttl tableID recordID).repoCalls = 1 ∧
       (CachedRecordRepository.FindByTableAndID renv ttl tableID recordID).result =
         renv.repoFindByTableAndID tableID recordID ∧
       (∀ r, renv.repoFindByTableAndID tableID recordID = Except.ok (some r) →
          (CachedRecordRepository.FindByTableAndID renv ttl tableID recordID).cacheTrace =
            [CacheCall.get (recordCacheKey "id" tableID recordID),
             CacheCall.set (recordCacheKey "id" tableID recordID)
               (RecordCacheVal.one r) ttl
               (renv.cacheSetOk (recordCacheKey "id" tableID recordID))]) ∧
       (renv.repoFindByTableAndID tableID recordID = Except.ok none →
          (CachedRecordRepository.FindByTableAndID renv ttl tableID recordID).cacheTrace =
            [CacheCall.get (recordCacheKey "id" tableID recordID)])) := by
  refine ⟨?_, ?_, ?_, ?_⟩
  · intro v hv
    exact findByID_hit fenv ttl id v hv
  · intro u hu
    rw [findByID_miss fenv ttl id u hu]
    refine ⟨?_, ?_, ?_, ?_, ?_⟩
    · rcases hr : fenv.repoFindByID id with e | f
      · simp [hr]
      · rcases f with _ | fv <;> simp [hr]
    · rcases hr : fenv.repoFindByID id with e | f
      · simp [hr]
      · rcases f with _ | fv <;> simp [hr]
    · intro f hf
      simp [hf]
    · intro hf
      simp [hf]
    · intro e he
      simp [he]
  · intro v hv
    exact findByTableAndID_hit renv ttl tableID recordID v hv
  · intro u hu
    rw [findByTableAndID_miss renv ttl tableID recordID u hu]
    refine ⟨?_, ?_, ?_, ?_⟩
    · rcases hr : renv.repoFindByTableAndID tableID recordID with e | r
      · simp [hr]
      · rcases r with _ | rv <;> simp [hr]
    · rcases hr : renv.repoFindByTableAndID tableID recordID with e | r
      · simp [hr]
      · rcases r with _ | rv <;> simp [hr]
    · intro r hr
      simp [hr]
    · intro hr
      simp [hr]

/-- Witness for C5: a hit on fenvHit returns the cached field without a
repository call; a miss on fenvMiss issues one repository call and populates
the cache with TTL 300. -/
theorem point_read_cache_aside_witness :
    CachedFieldRepository.FindByID fenvHit 300 "fld1" =
      ⟨Except.ok (some ⟨"fld1", "tbl1"⟩),
       [CacheCall.get (fieldCacheKey "id" "fld1")], 0⟩ ∧
    (CachedFieldRepository.FindByID fenvMiss 300 "fld1").repoCalls = 1 ∧
    (CachedFieldRepository.FindByID fenvMiss 300 "fld1").cacheTrace =
      [CacheCall.get (fieldCacheKey "id" "fld1"),
       CacheCall.set (fieldCacheKey "id" "fld1")
         (FieldCacheVal.one ⟨"fld1", "tbl1"⟩) 300 false] :=
  ⟨(point_read_cache_aside fenvHit renvMiss 300 "fld1" "tbl1" "rec1").1
     (some ⟨"fld1", "tbl1"⟩) rfl,
   ((point_read_cache_aside fenvMiss renvMiss 300 "fld1" "tbl1" "rec1").2.1
     () rfl).1,
   ((point_read_cache_aside fenvMiss renvMiss 300 "fld1" "tbl1" "rec1").2.1
     () rfl).2.2.1 ⟨"fld1", "tbl1"⟩ rfl⟩

/-- Claim C7: a cache-provider failure on the read path is invisible to the
caller — on any cache get error the point read returns exactly the
authoritative repository's result from one delegated call, and the returned
result never depends on anything but the cache get and the repository answer
(in particular not on the cache set outcome, which is only logged). -/
theorem cache_failure_never_surfaced (env : FieldRepoEnv) (ttl : Nat)
    (id : String) :
    (∀ u, env.cacheGetOne (fieldCacheKey "id" id) = Except.error u →
       (CachedFieldRepository.FindByID env ttl id).result = env.repoFindByID id ∧
       (CachedFieldRepository.FindByID env ttl id).repoCalls = 1) ∧
    (∀ env2 : FieldRepoEnv, env2.cacheGetOne = env.cacheGetOne →
       env2.repoFindByID = env.repoFindByID →
       (CachedFieldRepository.FindByID env2 ttl id).result =
         (CachedFieldRepository.FindByID env ttl id).result) := by
  constructor
  · intro u hu
    rw [findByID_miss env ttl id u hu]
    constructor
    · rcases hr : env.repoFindByID id with e | f
      · simp [hr]
      · rcases f with _ | fv <;> simp [hr]
    · rcases hr : env.repoFindByID id with e | f
      · simp [hr]
      · rcases f with _ | fv <;> simp [hr]
  · intro env2 h1 h2
    simp only [CachedFieldRepository.FindByID, h1, h2]
    rcases hg : env.cacheGetOne (fieldCacheKey "id" id) with u | v
    · rcases hr : env.repoFindByID id with e | f
      · simp [hg, hr]
      · rcases f with _ | fv <;> simp [hg, hr]
    · simp [hg]

/-- Witness for C7: with every cache call failing (fenvMiss), the point read
returns the authoritative answer, and flipping the cache-set outcome leaves
the returned result unchanged. -/
theorem cache_failure_never_surfaced_witness :
    (CachedFieldRepository.FindByID fenvMiss 300 "fld1").result =
      Except.ok (some ⟨"fld1", "tbl1"⟩) ∧
    (CachedFieldRepository.FindByID
        { fenvMiss with cacheSetOk := fun _ => true } 300 "fld1").result =
      (CachedFieldRepository.FindByID fenvMiss 300 "fld1").result :=
  ⟨((cache_failure_never_surfaced fenvMiss 300 "fld1").1 () rfl).1,
   (cache_failure_never_surfaced fenvMiss 300 "fld1").2
     { fenvMiss with cacheSetOk := fun _ => true } rfl rfl⟩

/-- Claim C4: for both the record and the field repository, save runs the
authoritative mutation first — on its error the error is returned with no
cache activity; on its success the point key is deleted and the owning
parent's list pattern invalidated before returning, and save returns success
whatever the two invalidation outcomes are. -/
theorem save_mutation_first_then_invalidation (renv : RecordRepoEnv)
    (fenv : FieldRepoEnv) (record : GoRecord) (field : Field) :
    (∀ e, renv.repoSave record = some e →
       CachedRecordRepository.Save renv record = ⟨Except.error e, [], 1⟩) ∧
    (renv.repoSave record = none →
       CachedRecordRepository.Save renv record =
         ⟨Except.ok (),
          [CacheCall.del [recordCacheKey "id" record.tableID record.id]
             (renv.cacheDelOk [recordCacheKey "id" record.tableID record.id]),
           CacheCall.invalidate ("record:list:" ++ record.tableID ++ ":*")
             (renv.cacheInvOk ("record:list:" ++ record.tableID ++ ":*"))],
          1⟩) ∧
    (∀ e, fenv.repoSave field = some e →
       CachedFieldRepository.Save fenv field = ⟨Except.error e, [], 1⟩) ∧
    (fenv.repoSave field = none →
       CachedFieldRepository.Save fenv field =
         ⟨Except.ok (),
          [CacheCall.del
             [fieldCacheKey "id" field.id, fieldCacheKey "table" field.tableID]
             (fenv.cacheDelOk
               [fieldCacheKey "id" field.id, fieldCacheKey "table" field.tableID]),
           CacheCall.invalidate ("field:table:" ++ field.tableID)
             (fenv.cacheInvOk ("field:table:" ++ field.tableID))],
          1⟩) := by
  refine ⟨?_, ?_, ?_, ?_⟩
  · intro e he
    simp [CachedRecordRepository.Save, he]
  · intro h
    simp [CachedRecordRepository.Save, h]
  · intro e he
    simp [CachedFieldRepository.Save, he]
  · intro h
    simp [CachedFieldRepository.Save, CachedFieldRepository.invalidateCacheTrace, h]

/-- Witness for C4: on renvMiss, whose invalidation calls all fail, saving
record rec1 still returns success after deleting the point key and
invalidating the table's list pattern. -/
theorem save_mutation_first_then_invalidation_witness :
    CachedRecordRepository.Save renvMiss ⟨"tbl1", "rec1"⟩ =
      ⟨Except.ok (),
       [CacheCall.del [recordCacheKey "id" "tbl1" "rec1"] false,
        CacheCall.invalidate "record:list:tbl1:*" false], 1⟩ :=
  (save_mutation_first_then_invalidation renvMiss fenvMiss
    ⟨"tbl1", "rec1"⟩ ⟨"fld1", "tbl1"⟩).2.1 rfl

/-- Claim C6 counterexample: the field repository's batch delete takes only
ids (no parent), succeeds, and issues no cache invalidation at all — its
cache trace is empty, with no wildcard pattern for any deleted id. -/
theorem fieldBatchDelete_no_invalidation :
    CachedFieldRepository.BatchDelete fenvMiss ["fld1", "fld2"] =
      ⟨Except.ok (), [], 1⟩ := by
  simp [CachedFieldRepository.BatchDelete, fenvMiss]

/-- Claim C6 (amended): on success the record repository's batch delete
invalidates the wildcard pattern record:*:*:<id> for every id in the batch,
but the field repository's batch delete is a bare delegation that performs no
invalidation. -/
theorem batchDelete_invalidation_rule (renv : RecordRepoEnv)
    (fenv : FieldRepoEnv) (ids : List String) :
    (renv.repoBatchDelete ids = none →
       CachedRecordRepository.BatchDelete renv ids =
         ⟨Except.ok (),
          ids.map (fun id =>
            CacheCall.invalidate ("record:*:*:" ++ id)
              (renv.cacheInvOk ("record:*:*:" ++ id))),
          1⟩) ∧
    (∀ e, renv.repoBatchDelete ids = some e →
       CachedRecordRepository.BatchDelete renv ids = ⟨Except.error e, [], 1⟩) ∧
    (CachedFieldRepository.BatchDelete fenv ids).cacheTrace = [] := by
  refine ⟨?_, ?_, ?_⟩
  · intro h
    simp [CachedRecordRepository.BatchDelete, h]
  · intro e he
    simp [CachedRecordRepository.BatchDelete, he]
  · rcases hd : fenv.repoBatchDelete ids with _ | e <;>
      simp [CachedFieldRepository.BatchDelete, hd]

/-- Witness for the amended C6: deleting rec1 and rec2 on renvMiss
invalidates the two per-id wildcard patterns while the field batch delete on
the same ids touches nothing. -/
theorem batchDelete_invalidation_rule_witness :
    CachedRecordRepository.BatchDelete renvMiss ["rec1", "rec2"] =
      ⟨Except.ok (),
       [CacheCall.invalidate "record:*:*:rec1" false,
        CacheCall.invalidate "record:*:*:rec2" false], 1⟩ ∧
    (CachedFieldRepository.BatchDelete fenvMiss ["rec1", "rec2"]).cacheTrace = [] :=
  ⟨(batchDelete_invalidation_rule renvMiss fenvMiss ["rec1", "rec2"]).1 rfl,
   (batchDelete_invalidation_rule renvMiss fenvMiss ["rec1", "rec2"]).2.2⟩

/-- Claim C10: List dereferences filter.TableID unconditionally — a nil
TableID faults before any cache or repository call; under the precondition
that TableID is present the fault branch is unreachable and the cache key is
record:list:<tableID>:<limit>:<offset>, a function of exactly
(TableID, Limit, Offset). -/
theorem list_requires_tableID (env : RecordRepoEnv) (ttl : Nat)
    (filter : RecordFilter) :
    (filter.tableID = none →
       CachedRecordRepository.List env ttl filter =
         ⟨true, Except.error "nil pointer dereference", [], 0⟩) ∧
    (∀ t, filter.tableID = some t →
       (CachedRecordRepository.List env ttl filter).fault = false ∧
       (CachedRecordRepository.List env ttl filter).cacheTrace.head? =
         some (CacheCall.get (recordListKey t filter.limit filter.offset))) := by
  constructor
  · intro h
    simp [CachedRecordRepository.List, h]
  · intro t h
    simp only [CachedRecordRepository.List, h]
    rcases hg : env.cacheGetPage (recordListKey t filter.limit filter.offset)
        with u | pr
    · rcases hr : env.repoList filter with e | pr2
      · simp [hg, hr]
      · rcases pr2 with ⟨records, total⟩
        simp [hg, hr]
    · simp [hg]

/-- Witness for C10: a nil TableID faults; with TableID tbl1, limit 10,
offset 0 the read is fault-free and keyed record:list:tbl1:10:0. -/
theorem list_requires_tableID_witness :
    CachedRecordRepository.List renvMiss 120 ⟨none, 10, 0⟩ =
      ⟨true, Except.error "nil pointer dereference", [], 0⟩ ∧
    (CachedRecordRepository.List renvMiss 120 ⟨some "tbl1", 10, 0⟩).fault = false ∧
    (CachedRecordRepository.List renvMiss 120 ⟨some "tbl1", 10, 0⟩).cacheTrace.head? =
      some (CacheCall.get (recordListKey "tbl1" 10 0)) :=
  ⟨(list_requires_tableID renvMiss 120 ⟨none, 10, 0⟩).1 rfl,
   ((list_requires_tableID renvMiss 120 ⟨some "tbl1", 10, 0⟩).2 "tbl1" rfl).1,
   ((list_requires_tableID renvMiss 120 ⟨some "tbl1", 10, 0⟩).2 "tbl1" rfl).2⟩

end Allingrid
